import Mathlib

/-!
Verification development for the training/evaluation engine loop of
`train.py` (video activity-recognition training script).

The shallow embedding below models:
  * the three metric accumulators (`AverageValueMeter`, `ClassErrorMeter`,
    `ConfusionMeter`) — these live in the external `torchnet` library, so
    they are modelled from the specification's description of the Metric
    Accumulators (§4.1);
  * the per-batch hook `on_forward`, the meter reset `reset_meters`;
  * the epoch orchestrator `on_end_epoch` / `runEpoch` / `runEpochsFrom`
    translated from `train.py` lines 48–108, together with an event trace
    recording the state-changing operations of each epoch;
  * the startup device check (`train.py` lines 145–149) and the global
    run state (`best_accuracy`, `results`, the two output files).

Scalar losses and accuracies are modelled as rationals.
-/

namespace TrainLoop

/-- A processed batch as seen by the hooks: the detached output logits
(one row of class scores per example), the integer labels, and the scalar
value of `loss.item()` for the batch. -/
structure Batch where
  output : List (List ℚ)
  labels : List ℕ
  lossVal : ℚ
deriving DecidableEq

/-! ### Metric accumulators (modelled from the spec §4.1) -/

/-- Modelled from the spec: `torchnet`'s `AverageValueMeter` is an external
dependency (only instantiated at `train.py` line 152).  Per §4.1 it keeps a
running arithmetic mean of the scalar values added since the last reset,
with the empty-state value defined as 0. -/
structure AverageValueMeter where
  sum : ℚ
  n : ℕ
deriving DecidableEq

def AverageValueMeter.reset (_ : AverageValueMeter) : AverageValueMeter :=
  { sum := 0, n := 0 }

def AverageValueMeter.add (m : AverageValueMeter) (v : ℚ) : AverageValueMeter :=
  { sum := m.sum + v, n := m.n + 1 }

def AverageValueMeter.value (m : AverageValueMeter) : ℚ :=
  if m.n = 0 then 0 else m.sum / (m.n : ℚ)

/-- Arithmetic mean of a list of rationals, 0 on the empty list. -/
def listAvg (l : List ℚ) : ℚ :=
  if l.length = 0 then 0 else l.sum / (l.length : ℚ)

/-- Number of classes scored strictly higher than the true label's score,
plus earlier classes with an equal score: the position the true class takes
in a stable descending sort of the scores. -/
def rankOf (row : List ℚ) (label : ℕ) : ℕ :=
  row.countP (fun x => decide (row.getD label 0 < x)) +
    (row.take label).countP (fun x => decide (x = row.getD label 0))

/-- The true label is among the top-`k` predicted classes. -/
def inTopK (row : List ℚ) (label k : ℕ) : Bool :=
  decide (rankOf row label < k)

/-- Index of the first maximal score in a row of logits (the argmax
prediction). -/
def argmaxIdx (row : List ℚ) : ℕ :=
  row.findIdx (fun x => row.all (fun y => decide (y ≤ x)))

/-- Number of examples of a batch whose true label is among the top-`k`
predicted classes. -/
def countCorrect (output : List (List ℚ)) (labels : List ℕ) (k : ℕ) : ℕ :=
  (output.zip labels).countP (fun p => inTopK p.1 p.2 k)

/-- Modelled from the spec: `torchnet`'s `ClassErrorMeter` with
`topk=[1, 5], accuracy=True` (instantiated at `train.py` line 153).  Per
§4.1 it accumulates, for each requested `k`, a running 0–100 percentage of
examples whose true label is among the top-`k` predicted classes;
`value()` returns the percentages in the order of the `topk` list. -/
structure ClassErrorMeter where
  topk : List ℕ
  correct : List ℕ
  n : ℕ
deriving DecidableEq

def ClassErrorMeter.reset (m : ClassErrorMeter) : ClassErrorMeter :=
  { m with correct := m.topk.map (fun _ => 0), n := 0 }

def ClassErrorMeter.add (m : ClassErrorMeter) (output : List (List ℚ))
    (labels : List ℕ) : ClassErrorMeter :=
  { m with
    correct := (m.topk.zip m.correct).map
      (fun kc => kc.2 + countCorrect output labels kc.1),
    n := m.n + (output.zip labels).length }

def ClassErrorMeter.value (m : ClassErrorMeter) : List ℚ :=
  m.correct.map (fun c => if m.n = 0 then 0 else 100 * (c : ℚ) / (m.n : ℚ))

/-- Increment entry `j` of a row of counts. -/
def bumpAt (l : List ℕ) (j : ℕ) : List ℕ :=
  l.set j (l.getD j 0 + 1)

/-- Modelled from the spec: `torchnet`'s `ConfusionMeter` over
`num_classes` classes with `normalized=True` (instantiated at `train.py`
line 154).  Per §4.1 it keeps a `num_classes × num_classes` count matrix,
`add` increments the cell `[true][predicted]` per example, and `value()`
returns the row-normalized matrix. -/
structure ConfusionMeter where
  k : ℕ
  mat : List (List ℕ)
deriving DecidableEq

def ConfusionMeter.reset (m : ConfusionMeter) : ConfusionMeter :=
  { m with mat := List.replicate m.k (List.replicate m.k 0) }

def ConfusionMeter.add (m : ConfusionMeter) (output : List (List ℚ))
    (labels : List ℕ) : ConfusionMeter :=
  { m with
    mat := (output.zip labels).foldl
      (fun acc p => acc.set p.2 (bumpAt (acc.getD p.2 []) (argmaxIdx p.1)))
      m.mat }

def ConfusionMeter.value (m : ConfusionMeter) : List (List ℚ) :=
  m.mat.map (fun row =>
    row.map (fun x => if row.sum = 0 then 0 else (x : ℚ) / (row.sum : ℚ)))

/-- The bundle of the three process-wide meters of `train.py`
(lines 152–154). -/
structure Meters where
  meter_loss : AverageValueMeter
  meter_accuracy : ClassErrorMeter
  meter_confusion : ConfusionMeter
deriving DecidableEq

/-- `reset_meters` (`train.py` lines 36–39): resets all three meters. -/
def reset_meters (m : Meters) : Meters :=
  { meter_loss := m.meter_loss.reset,
    meter_accuracy := m.meter_accuracy.reset,
    meter_confusion := m.meter_confusion.reset }

/-- `on_forward` (`train.py` lines 42–45): adds the batch's detached
output and labels to the accuracy and confusion meters and the batch's
loss value to the loss meter. -/
def on_forward (m : Meters) (b : Batch) : Meters :=
  { meter_loss := m.meter_loss.add b.lossVal,
    meter_accuracy := m.meter_accuracy.add b.output b.labels,
    meter_confusion := m.meter_confusion.add b.output b.labels }

/-- Feeding a list of batches through `on_forward` (the per-batch hook
invocations of one phase). -/
def runBatches (m : Meters) (bs : List Batch) : Meters :=
  bs.foldl on_forward m

/-! ### Run configuration, state and event trace -/

/-- The configuration surface of the run (`train.py` lines 112–122):
dataset tag, model tag, number of classes, requested device list and the
machine's available device count, epoch count. -/
structure Config where
  data_type : String
  model_type : String
  num_class : ℕ
  device_ids : List ℕ
  gpu_count : ℕ
  num_epochs : ℕ
deriving DecidableEq

/-- The model-checkpoint path `'epochs/{}_{}.pth'` (`train.py`
lines 84/86). -/
def ckptPathString (c : Config) : String :=
  "epochs/" ++ c.data_type ++ "_" ++ c.model_type ++ ".pth"

/-- The statistics path `'statistics/{}_{}_results.csv'` (`train.py`
line 108). -/
def csvPathString (c : Config) : String :=
  "statistics/" ++ c.data_type ++ "_" ++ c.model_type ++ "_results.csv"

/-- The nine per-epoch metric columns of the `results` dict (`train.py`
lines 123–125). -/
structure Results where
  train_loss : List ℚ
  train_top1_accuracy : List ℚ
  train_top5_accuracy : List ℚ
  val_loss : List ℚ
  val_top1_accuracy : List ℚ
  val_top5_accuracy : List ℚ
  test_loss : List ℚ
  test_top1_accuracy : List ℚ
  test_top5_accuracy : List ℚ
deriving DecidableEq

def emptyResults : Results :=
  { train_loss := [], train_top1_accuracy := [], train_top5_accuracy := [],
    val_loss := [], val_top1_accuracy := [], val_top5_accuracy := [],
    test_loss := [], test_top1_accuracy := [], test_top5_accuracy := [] }

inductive Phase where
  | train
  | val
  | test
deriving DecidableEq

/-- Append the current meter readings for one phase into `results`
(the `results[...].append(...)` lines of `on_end_epoch`). -/
def appendPhase (r : Results) (p : Phase) (m : Meters) : Results :=
  match p with
  | .train =>
    { r with
      train_loss := r.train_loss ++ [m.meter_loss.value],
      train_top1_accuracy := r.train_top1_accuracy ++ [m.meter_accuracy.value.getD 0 0],
      train_top5_accuracy := r.train_top5_accuracy ++ [m.meter_accuracy.value.getD 1 0] }
  | .val =>
    { r with
      val_loss := r.val_loss ++ [m.meter_loss.value],
      val_top1_accuracy := r.val_top1_accuracy ++ [m.meter_accuracy.value.getD 0 0],
      val_top5_accuracy := r.val_top5_accuracy ++ [m.meter_accuracy.value.getD 1 0] }
  | .test =>
    { r with
      test_loss := r.test_loss ++ [m.meter_loss.value],
      test_top1_accuracy := r.test_top1_accuracy ++ [m.meter_accuracy.value.getD 0 0],
      test_top5_accuracy := r.test_top5_accuracy ++ [m.meter_accuracy.value.getD 1 0] }

/-- The serialized statistics table: the `pd.DataFrame(data=results,
index=range(1, epoch+1)).to_csv(...)` write (`train.py` lines 107–108). -/
structure StatsFile where
  index : List ℕ
  table : Results
deriving DecidableEq

/-- The two filesystem outputs of the run.  Each write replaces the file's
whole content (both `torch.save` and `DataFrame.to_csv` overwrite). -/
structure Storage where
  checkpointFile : Option ℕ
  statsFile : Option StatsFile
deriving DecidableEq

/-- The process-wide mutable state of the training run: the three meters,
`best_accuracy` (`train.py` line 127), the `results` dict, the output
files, and a version counter for the model parameters (bumped by every
gradient step). -/
structure RunState where
  meters : Meters
  best_accuracy : ℚ
  results : Results
  storage : Storage
  modelParams : ℕ
deriving DecidableEq

/-- Observable state-changing operations of the loop, recorded in order.
`phaseRun` carries the phase, the training flag passed to the batch
processor, whether the pass is wrapped in a no-gradient context, the
number of batches and the number of gradient steps performed. -/
inductive Event where
  | resetMeters
  | phaseRun (p : Phase) (training noGrad : Bool) (nBatches gradSteps : ℕ)
  | ckDecision (acc best : ℚ) (written : Bool)
  | ckWrite (path : String)
  | schedStep (lossArg : ℚ)
  | persist (path : String) (rows : ℕ)
deriving DecidableEq

/-- Initial meters as constructed at `train.py` lines 152–154. -/
def initMeters (numClass : ℕ) : Meters :=
  { meter_loss := { sum := 0, n := 0 },
    meter_accuracy := { topk := [1, 5], correct := [0, 0], n := 0 },
    meter_confusion :=
      { k := numClass, mat := List.replicate numClass (List.replicate numClass 0) } }

/-- The run state at startup (`train.py` lines 123–127, 152–154):
`best_accuracy = 0`, empty `results`, no files written yet. -/
def initState (c : Config) : RunState :=
  { meters := initMeters c.num_class,
    best_accuracy := 0,
    results := emptyResults,
    storage := { checkpointFile := none, statsFile := none },
    modelParams := 0 }

/-- The data fed through the three phases of one epoch. -/
structure EpochData where
  trainBatches : List Batch
  valBatches : List Batch
  testBatches : List Batch
deriving DecidableEq

/-- `on_end_epoch` (`train.py` lines 53–108), entered with the meters
holding the train-phase accumulations: log/record train metrics, reset,
run the validation pass under `torch.no_grad()`, record val metrics,
checkpoint decision against `best_accuracy`, `scheduler.step` on the
val-phase mean loss, reset, run the test pass under `torch.no_grad()`,
record test metrics, and overwrite the statistics csv with the full
table indexed `1..epoch`. -/
def on_end_epoch (c : Config) (E : EpochData) (epoch : ℕ) (s : RunState) :
    RunState × List Event :=
  let r1 := appendPhase s.results .train s.meters
  let mVal := runBatches (reset_meters s.meters) E.valBatches
  let r2 := appendPhase r1 .val mVal
  let valAcc := mVal.meter_accuracy.value.getD 0 0
  let written := decide (s.best_accuracy < valAcc)
  let st1 :=
    if written then { s.storage with checkpointFile := some s.modelParams }
    else s.storage
  let best1 := if written then valAcc else s.best_accuracy
  let valLoss := mVal.meter_loss.value
  let mTest := runBatches (reset_meters mVal) E.testBatches
  let r3 := appendPhase r2 .test mTest
  let st2 := { st1 with statsFile := some { index := List.range' 1 epoch, table := r3 } }
  ({ meters := mTest, best_accuracy := best1, results := r3, storage := st2,
     modelParams := s.modelParams },
   [Event.resetMeters,
    Event.phaseRun .val false true E.valBatches.length 0,
    Event.ckDecision valAcc s.best_accuracy written]
   ++ (if written then [Event.ckWrite (ckptPathString c)] else [])
   ++ [Event.schedStep valLoss,
       Event.resetMeters,
       Event.phaseRun .test false true E.testBatches.length 0,
       Event.persist (csvPathString c) epoch])

/-- One full epoch of the engine: `on_start_epoch` resets the meters, the
training pass runs every train batch with a gradient step (forward, the
`on_forward` hook, backward, optimizer step), then `on_end_epoch` runs. -/
def runEpoch (c : Config) (E : EpochData) (epoch : ℕ) (s : RunState) :
    RunState × List Event :=
  let mTrain := runBatches (reset_meters s.meters) E.trainBatches
  let s1 := { s with meters := mTrain,
                     modelParams := s.modelParams + E.trainBatches.length }
  let out := on_end_epoch c E epoch s1
  (out.1,
   [Event.resetMeters,
    Event.phaseRun .train true false E.trainBatches.length E.trainBatches.length]
   ++ out.2)

/-- The engine's epoch loop from epoch number `epoch0` onwards: one
`runEpoch` per entry of `epochs`, threading the state and concatenating
the traces. -/
def runEpochsFrom (c : Config) (epochs : List EpochData) (epoch0 : ℕ)
    (s : RunState) : RunState × List Event :=
  match epochs with
  | [] => (s, [])
  | E :: rest =>
    let out := runEpoch c E epoch0 s
    let outs := runEpochsFrom c rest (epoch0 + 1) out.1
    (outs.1, out.2 ++ outs.2)

/-- Startup failure modes (`train.py` line 149). -/
inductive StartupError where
  | notEnoughGpus (requested : ℕ)
deriving DecidableEq

/-- The startup device check (`train.py` lines 145–149): when more than
one device is requested, the machine must have at least that many GPUs,
otherwise a `ValueError` is raised before the engine ever starts. -/
def startupCheck (c : Config) : Except StartupError Unit :=
  if 1 < c.device_ids.length then
    if c.device_ids.length ≤ c.gpu_count then Except.ok ()
    else Except.error (StartupError.notEnoughGpus c.device_ids.length)
  else Except.ok ()

/-- The whole program: the startup check, then the engine loop over the
epochs starting from the initial state; an error at startup means no
epoch runs and no trace is produced. -/
def mainRun (c : Config) (epochs : List EpochData) :
    Except StartupError (RunState × List Event) :=
  match startupCheck c with
  | Except.error e => Except.error e
  | Except.ok _ => Except.ok (runEpochsFrom c epochs 1 (initState c))

/-! ### Pure phase readings

The value each freshly reset meter shows after one phase, as a function of
that phase's batches alone. -/

/-- Total number of examples whose true label lands in the top-`k`
predicted classes, over a list of batches. -/
def topkTotal (bs : List Batch) (k : ℕ) : ℕ :=
  (bs.map (fun b => countCorrect b.output b.labels k)).sum

/-- Total number of examples over a list of batches. -/
def exTotal (bs : List Batch) : ℕ :=
  (bs.map (fun b => (b.output.zip b.labels).length)).sum

/-- The accuracy meter of `train.py` (topk `[1, 5]`) after one phase over
`bs`, starting freshly reset. -/
def accAfter (bs : List Batch) : ClassErrorMeter :=
  bs.foldl (fun a b => a.add b.output b.labels)
    { topk := [1, 5], correct := [0, 0], n := 0 }

/-- The top-1 percentage the accuracy meter shows after one phase. -/
def top1Reading (bs : List Batch) : ℚ :=
  (accAfter bs).value.getD 0 0

/-- The top-5 percentage the accuracy meter shows after one phase. -/
def top5Reading (bs : List Batch) : ℚ :=
  (accAfter bs).value.getD 1 0

/-- The mean loss the loss meter shows after one phase. -/
def lossReading (bs : List Batch) : ℚ :=
  listAvg (bs.map Batch.lossVal)

/-- The validation top-1 percentage read at the checkpoint decision of one
epoch run from state `s`. -/
def epochValAcc (s : RunState) (E : EpochData) : ℚ :=
  (runBatches (reset_meters (runBatches (reset_meters s.meters) E.trainBatches))
    E.valBatches).meter_accuracy.value.getD 0 0

/-! ### Trace predicates -/

/-- The arguments of the scheduler-step invocations of a trace,
in order. -/
def schedArgs (evs : List Event) : List ℚ :=
  evs.filterMap (fun e =>
    match e with
    | Event.schedStep l => some l
    | _ => none)

def isSchedStep : Event → Bool := fun e =>
  match e with
  | Event.schedStep _ => true
  | _ => false

def isCkDecision : Event → Bool := fun e =>
  match e with
  | Event.ckDecision _ _ _ => true
  | _ => false

def isTestRun : Event → Bool := fun e =>
  match e with
  | Event.phaseRun Phase.test _ _ _ _ => true
  | _ => false

def isPhaseRunEvt : Event → Bool := fun e =>
  match e with
  | Event.phaseRun _ _ _ _ _ => true
  | _ => false

/-- The `(path, rows)` arguments of the statistics-persist invocations of
a trace, in order. -/
def persistArgs (evs : List Event) : List (String × ℕ) :=
  evs.filterMap (fun e =>
    match e with
    | Event.persist p r => some (p, r)
    | _ => none)

/-- Every event immediately followed by a phase execution is a meter
reset. -/
def ResetBeforePhases (evs : List Event) : Prop :=
  ∀ p ∈ evs.zip evs.tail, isPhaseRunEvt p.2 = true → p.1 = Event.resetMeters

/-- Every non-training phase execution of a trace runs with the training
flag false, inside a no-gradient context, and performs zero gradient
steps. -/
def EvalPhasesSafe (evs : List Event) : Prop :=
  ∀ p tr ng nb g, Event.phaseRun p tr ng nb g ∈ evs → p ≠ Phase.train →
    tr = false ∧ ng = true ∧ g = 0

/-- All nine metric columns of a `results` table have length `k`. -/
def allLens (r : Results) (k : ℕ) : Prop :=
  r.train_loss.length = k ∧ r.train_top1_accuracy.length = k ∧
  r.train_top5_accuracy.length = k ∧ r.val_loss.length = k ∧
  r.val_top1_accuracy.length = k ∧ r.val_top5_accuracy.length = k ∧
  r.test_loss.length = k ∧ r.test_top1_accuracy.length = k ∧
  r.test_top5_accuracy.length = k

/-- The sequence of run states observed at epoch boundaries: the state
before the first listed epoch, then after each successive epoch. -/
def stateSeq (c : Config) (epochs : List EpochData) (ep0 : ℕ) (s : RunState) :
    List RunState :=
  match epochs with
  | [] => [s]
  | E :: rest => s :: stateSeq c rest (ep0 + 1) (runEpoch c E ep0 s).1

/-! ### Concrete instances used to evaluate the theorems -/

/-- A two-class, two-example batch: example 0 predicted class 0 correctly,
example 1 predicted class 0 wrongly. -/
def batchW : Batch :=
  { output := [[1, 0], [1, 0]], labels := [0, 1], lossVal := 2 }

/-- A batch both of whose examples are classified correctly. -/
def batchW2 : Batch :=
  { output := [[1, 0], [0, 1]], labels := [0, 1], lossVal := 1 }

def cfgW : Config :=
  { data_type := "ucf101", model_type := "stts-a", num_class := 2,
    device_ids := [0], gpu_count := 1, num_epochs := 1 }

/-- A configuration requesting three parallel devices on a two-GPU
machine. -/
def cfgBad : Config :=
  { data_type := "ucf101", model_type := "stts-a", num_class := 2,
    device_ids := [0, 1, 2], gpu_count := 2, num_epochs := 1 }

def epochW : EpochData :=
  { trainBatches := [batchW], valBatches := [batchW], testBatches := [batchW] }

/-- An epoch whose validation top-1 accuracy is 100. -/
def epochW2 : EpochData :=
  { trainBatches := [batchW], valBatches := [batchW2], testBatches := [] }

/-- An epoch with no batches at all: every reading is the empty-state
value. -/
def epochW0 : EpochData :=
  { trainBatches := [], valBatches := [], testBatches := [] }

/-- The confusion meter over `k` classes after one phase over `bs`,
starting freshly reset. -/
def confAfter (k : ℕ) (bs : List Batch) : ConfusionMeter :=
  bs.foldl (fun (a : ConfusionMeter) b => a.add b.output b.labels)
    { k := k, mat := List.replicate k (List.replicate k 0) }

/-- Well-formed batch: as many label entries as output rows, and every
label indexes into its row of class scores. -/
def BatchWF (b : Batch) : Prop :=
  b.output.length = b.labels.length ∧ ∀ p ∈ b.output.zip b.labels, p.2 < p.1.length

/-- Total number of examples whose argmax prediction equals the true
label, over a list of batches. -/
def argmaxTotal (bs : List Batch) : ℕ :=
  (bs.map (fun b => (b.output.zip b.labels).countP (fun p => argmaxIdx p.1 == p.2))).sum

/-! ### Meter lemmas -/

theorem runBatches_meter_loss (bs : List Batch) (m : Meters) :
    (runBatches m bs).meter_loss =
      { sum := m.meter_loss.sum + (bs.map Batch.lossVal).sum,
        n := m.meter_loss.n + bs.length } := by
  induction bs generalizing m with
  | nil => simp [runBatches]
  | cons b bs ih =>
    simp only [runBatches, List.foldl_cons] at *
    rw [ih]
    simp only [on_forward, AverageValueMeter.add, AverageValueMeter.mk.injEq,
      List.map_cons, List.sum_cons, List.length_cons]
    constructor
    · ring
    · omega

theorem runBatches_meter_loss_value (bs : List Batch) (m : Meters) :
    (runBatches (reset_meters m) bs).meter_loss.value =
      lossReading bs := by
  rw [runBatches_meter_loss]
  simp [reset_meters, AverageValueMeter.reset, AverageValueMeter.value,
    lossReading, listAvg]

theorem runBatches_meter_accuracy (bs : List Batch) (m : Meters) :
    (runBatches m bs).meter_accuracy =
      bs.foldl (fun a b => a.add b.output b.labels) m.meter_accuracy := by
  induction bs generalizing m with
  | nil => simp [runBatches]
  | cons b bs ih =>
    simp only [runBatches, List.foldl_cons] at *
    rw [ih]
    simp [on_forward]

theorem accMeter_add_char (out : List (List ℚ)) (lab : List ℕ) (c1 c5 n : ℕ) :
    ClassErrorMeter.add { topk := [1, 5], correct := [c1, c5], n := n } out lab =
      { topk := [1, 5],
        correct := [c1 + countCorrect out lab 1, c5 + countCorrect out lab 5],
        n := n + (out.zip lab).length } := by
  rfl

theorem accFold_char (bs : List Batch) (c1 c5 n : ℕ) :
    bs.foldl (fun (a : ClassErrorMeter) b => a.add b.output b.labels)
        { topk := [1, 5], correct := [c1, c5], n := n } =
      { topk := [1, 5],
        correct := [c1 + topkTotal bs 1, c5 + topkTotal bs 5],
        n := n + exTotal bs } := by
  induction bs generalizing c1 c5 n with
  | nil => simp [topkTotal, exTotal]
  | cons b bs ih =>
    rw [List.foldl_cons, accMeter_add_char, ih]
    simp only [ClassErrorMeter.mk.injEq, List.cons.injEq, and_true, true_and,
      topkTotal, exTotal, List.map_cons, List.sum_cons]
    refine ⟨⟨?_, ?_⟩, ?_⟩ <;> omega

theorem accAfter_char (bs : List Batch) :
    accAfter bs =
      { topk := [1, 5],
        correct := [topkTotal bs 1, topkTotal bs 5],
        n := exTotal bs } := by
  have h := accFold_char bs 0 0 0
  simpa [accAfter] using h

theorem reset_meter_accuracy (m : Meters)
    (h : m.meter_accuracy.topk = [1, 5]) :
    (reset_meters m).meter_accuracy =
      { topk := [1, 5], correct := [0, 0], n := 0 } := by
  simp [reset_meters, ClassErrorMeter.reset, h]

theorem runBatches_accuracy_reset (bs : List Batch) (m : Meters)
    (h : m.meter_accuracy.topk = [1, 5]) :
    (runBatches (reset_meters m) bs).meter_accuracy = accAfter bs := by
  rw [runBatches_meter_accuracy, reset_meter_accuracy m h]
  rfl

theorem topk_runBatches (bs : List Batch) (m : Meters) :
    (runBatches m bs).meter_accuracy.topk = m.meter_accuracy.topk := by
  induction bs generalizing m with
  | nil => simp [runBatches]
  | cons b bs ih =>
    simp only [runBatches, List.foldl_cons] at *
    rw [ih]
    simp [on_forward, ClassErrorMeter.add]

theorem topk_reset (m : Meters) :
    (reset_meters m).meter_accuracy.topk = m.meter_accuracy.topk := by
  simp [reset_meters, ClassErrorMeter.reset]

theorem runBatches_meter_confusion (bs : List Batch) (m : Meters) :
    (runBatches m bs).meter_confusion =
      bs.foldl (fun (a : ConfusionMeter) b => a.add b.output b.labels)
        m.meter_confusion := by
  induction bs generalizing m with
  | nil => simp [runBatches]
  | cons b bs ih =>
    simp only [runBatches, List.foldl_cons] at *
    rw [ih]
    simp [on_forward]

theorem confFold_k (bs : List Batch) (a : ConfusionMeter) :
    (bs.foldl (fun (a : ConfusionMeter) b => a.add b.output b.labels) a).k =
      a.k := by
  induction bs generalizing a with
  | nil => rfl
  | cons b bs ih =>
    rw [List.foldl_cons, ih]
    rfl

theorem conf_k_runBatches (bs : List Batch) (m : Meters) :
    (runBatches m bs).meter_confusion.k = m.meter_confusion.k := by
  rw [runBatches_meter_confusion, confFold_k]

theorem runBatches_confusion_reset (bs : List Batch) (m : Meters) :
    (runBatches (reset_meters m) bs).meter_confusion =
      confAfter m.meter_confusion.k bs := by
  rw [runBatches_meter_confusion]
  rfl

theorem conf_k_reset (m : Meters) :
    (reset_meters m).meter_confusion.k = m.meter_confusion.k := by
  rfl

theorem accAfter_value (bs : List Batch) :
    (accAfter bs).value =
      [if exTotal bs = 0 then 0 else 100 * (topkTotal bs 1 : ℚ) / (exTotal bs : ℚ),
       if exTotal bs = 0 then 0 else 100 * (topkTotal bs 5 : ℚ) / (exTotal bs : ℚ)] := by
  rw [accAfter_char]
  simp [ClassErrorMeter.value]

theorem top1Reading_char (bs : List Batch) :
    top1Reading bs =
      if exTotal bs = 0 then 0
      else 100 * (topkTotal bs 1 : ℚ) / (exTotal bs : ℚ) := by
  rw [top1Reading, accAfter_value]
  rfl

/-! ### Epoch-level lemmas -/

theorem epochValAcc_eq (s : RunState) (E : EpochData)
    (h : s.meters.meter_accuracy.topk = [1, 5]) :
    epochValAcc s E = top1Reading E.valBatches := by
  rw [epochValAcc, runBatches_accuracy_reset]
  · rfl
  · rw [topk_runBatches, topk_reset]
    exact h

theorem runEpoch_best_char (c : Config) (E : EpochData) (ep : ℕ) (s : RunState) :
    (runEpoch c E ep s).1.best_accuracy =
      if s.best_accuracy < epochValAcc s E then epochValAcc s E
      else s.best_accuracy := by
  simp [runEpoch, on_end_epoch, epochValAcc]

theorem best_le_runEpoch (c : Config) (E : EpochData) (ep : ℕ) (s : RunState) :
    s.best_accuracy ≤ (runEpoch c E ep s).1.best_accuracy := by
  rw [runEpoch_best_char]
  split
  · exact le_of_lt (by assumption)
  · exact le_refl _

theorem best_le_runEpochsFrom (c : Config) (epochs : List EpochData) (ep : ℕ)
    (s : RunState) :
    s.best_accuracy ≤ (runEpochsFrom c epochs ep s).1.best_accuracy := by
  induction epochs generalizing ep s with
  | nil => exact le_refl _
  | cons E rest ih =>
    exact le_trans (best_le_runEpoch c E ep s)
      (ih (ep + 1) (runEpoch c E ep s).1)

theorem topk_runEpoch (c : Config) (E : EpochData) (ep : ℕ) (s : RunState) :
    (runEpoch c E ep s).1.meters.meter_accuracy.topk =
      s.meters.meter_accuracy.topk := by
  simp only [runEpoch, on_end_epoch]
  rw [topk_runBatches, topk_reset, topk_runBatches, topk_reset,
    topk_runBatches, topk_reset]

theorem topk_runEpochsFrom (c : Config) (epochs : List EpochData) (ep : ℕ)
    (s : RunState) :
    (runEpochsFrom c epochs ep s).1.meters.meter_accuracy.topk =
      s.meters.meter_accuracy.topk := by
  induction epochs generalizing ep s with
  | nil => rfl
  | cons E rest ih =>
    rw [runEpochsFrom]
    rw [ih (ep + 1) (runEpoch c E ep s).1, topk_runEpoch]

theorem runEpoch_ckWrite_mem (c : Config) (E : EpochData) (ep : ℕ)
    (s : RunState) (p : String) :
    (Event.ckWrite p ∈ (runEpoch c E ep s).2 ↔
      (p = ckptPathString c ∧ s.best_accuracy < epochValAcc s E)) := by
  simp only [runEpoch, on_end_epoch, epochValAcc]
  simp
  exact and_comm

/-! ## Claim theorems -/

/-- C1: In every epoch, the plateau scheduler's step is invoked exactly
once, its argument is the validation-phase mean loss, and the invocation
lies strictly after the checkpoint decision and strictly before the test
phase of the epoch. -/
theorem scheduler_step_once_val_loss_order (c : Config) (E : EpochData)
    (ep : ℕ) (s : RunState) :
    schedArgs (runEpoch c E ep s).2 = [lossReading E.valBatches] ∧
    ∃ pre post,
      (runEpoch c E ep s).2 =
          pre ++ [Event.schedStep (lossReading E.valBatches)] ++ post ∧
        pre.countP isSchedStep = 0 ∧ post.countP isSchedStep = 0 ∧
        pre.countP isCkDecision = 1 ∧ post.countP isCkDecision = 0 ∧
        pre.countP isTestRun = 0 ∧ post.countP isTestRun = 1 := by
  have hloss := runBatches_meter_loss_value E.valBatches
    (runBatches (reset_meters s.meters) E.trainBatches)
  constructor
  · simp [runEpoch, on_end_epoch, schedArgs, hloss]
  · refine ⟨[Event.resetMeters,
      Event.phaseRun .train true false E.trainBatches.length E.trainBatches.length,
      Event.resetMeters,
      Event.phaseRun .val false true E.valBatches.length 0,
      Event.ckDecision (epochValAcc s E) s.best_accuracy
        (decide (s.best_accuracy < epochValAcc s E))]
      ++ (if decide (s.best_accuracy < epochValAcc s E)
          then [Event.ckWrite (ckptPathString c)] else []),
      [Event.resetMeters,
       Event.phaseRun .test false true E.testBatches.length 0,
       Event.persist (csvPathString c) ep], ?_, ?_, ?_, ?_, ?_, ?_, ?_⟩
    · simp [runEpoch, on_end_epoch, epochValAcc, hloss]
    · split <;> simp [isSchedStep]
    · simp [isSchedStep]
    · split <;> simp [isCkDecision]
    · simp [isCkDecision]
    · split <;> simp [isTestRun]
    · simp [isTestRun]

/-- C2: A checkpoint is written in an epoch iff the validation top-1
accuracy strictly exceeds the stored best accuracy; on a write the best
accuracy becomes that value, and any later epoch presenting the identical
accuracy writes no checkpoint. -/
theorem checkpoint_iff_strict_improvement (c : Config) (E : EpochData)
    (ep : ℕ) (s : RunState)
    (h : s.meters.meter_accuracy.topk = [1, 5]) :
    (Event.ckWrite (ckptPathString c) ∈ (runEpoch c E ep s).2 ↔
      s.best_accuracy < top1Reading E.valBatches) ∧
    (s.best_accuracy < top1Reading E.valBatches →
      (runEpoch c E ep s).1.best_accuracy = top1Reading E.valBatches) ∧
    (∀ (mid : List EpochData) (ep2 ep3 : ℕ) (E2 : EpochData),
      s.best_accuracy < top1Reading E.valBatches →
      top1Reading E2.valBatches = top1Reading E.valBatches →
      Event.ckWrite (ckptPathString c) ∉
        (runEpoch c E2 ep3
          (runEpochsFrom c mid ep2 (runEpoch c E ep s).1).1).2) := by
  have hv := epochValAcc_eq s E h
  refine ⟨?_, ?_, ?_⟩
  · rw [runEpoch_ckWrite_mem, hv]
    simp
  · intro hlt
    rw [runEpoch_best_char, hv, if_pos hlt]
  · intro mid ep2 ep3 E2 hlt heq
    have h2 : (runEpochsFrom c mid ep2
        (runEpoch c E ep s).1).1.meters.meter_accuracy.topk = [1, 5] := by
      rw [topk_runEpochsFrom, topk_runEpoch]
      exact h
    rw [runEpoch_ckWrite_mem, epochValAcc_eq _ E2 h2, heq]
    rintro ⟨-, hlt2⟩
    have hb1 : (runEpoch c E ep s).1.best_accuracy = top1Reading E.valBatches := by
      rw [runEpoch_best_char, hv, if_pos hlt]
    have hb2 := best_le_runEpochsFrom c mid ep2 (runEpoch c E ep s).1
    rw [hb1] at hb2
    exact absurd hlt2 (not_lt.mpr hb2)

/-- C2 witness: from the initial state (best accuracy 0), an epoch with
validation top-1 accuracy 50 writes the checkpoint, the best accuracy
becomes 50, and a later epoch with the same accuracy writes nothing. -/
theorem checkpoint_iff_strict_improvement_instance :
    (Event.ckWrite (ckptPathString cfgW) ∈
        (runEpoch cfgW epochW 1 (initState cfgW)).2 ↔
      (initState cfgW).best_accuracy < top1Reading epochW.valBatches) ∧
    ((initState cfgW).best_accuracy < top1Reading epochW.valBatches →
      (runEpoch cfgW epochW 1 (initState cfgW)).1.best_accuracy =
        top1Reading epochW.valBatches) ∧
    (∀ (mid : List EpochData) (ep2 ep3 : ℕ) (E2 : EpochData),
      (initState cfgW).best_accuracy < top1Reading epochW.valBatches →
      top1Reading E2.valBatches = top1Reading epochW.valBatches →
      Event.ckWrite (ckptPathString cfgW) ∉
        (runEpoch cfgW E2 ep3
          (runEpochsFrom cfgW mid ep2
            (runEpoch cfgW epochW 1 (initState cfgW)).1).1).2) :=
  checkpoint_iff_strict_improvement cfgW epochW 1 (initState cfgW) rfl

/-- C3: The best-accuracy tracker starts at 0 and the sequence of its
values across the epochs of any run is monotonically non-decreasing. -/
theorem best_accuracy_starts_zero_monotone (c : Config)
    (epochs : List EpochData) (ep0 : ℕ) (s : RunState) :
    (initState c).best_accuracy = 0 ∧
    List.Chain' (fun a b => a.best_accuracy ≤ b.best_accuracy)
      (stateSeq c epochs ep0 s) ∧
    s.best_accuracy ≤ (runEpochsFrom c epochs ep0 s).1.best_accuracy := by
  refine ⟨rfl, ?_, best_le_runEpochsFrom c epochs ep0 s⟩
  induction epochs generalizing ep0 s with
  | nil => simp [stateSeq]
  | cons E rest ih =>
    rw [stateSeq]
    have hhd : ∃ t, stateSeq c rest (ep0 + 1) (runEpoch c E ep0 s).1 =
        (runEpoch c E ep0 s).1 :: t := by
      cases rest <;> exact ⟨_, rfl⟩
    obtain ⟨t, ht⟩ := hhd
    rw [ht, List.chain'_cons]
    refine ⟨best_le_runEpoch c E ep0 s, ?_⟩
    rw [← ht]
    exact ih (ep0 + 1) (runEpoch c E ep0 s).1

/-- C4: Within every epoch the meters are reset immediately before each
phase execution (the trace starts with a reset and every phase execution
is directly preceded by one), the nine values recorded at the end of
the train, validation and test phases are functions of that phase's
batches alone, and so is the confusion meter's state at the end of each
phase — no accumulator state leaks across phases or epochs. -/
theorem meters_reset_before_phases (c : Config) (E : EpochData) (ep : ℕ)
    (s : RunState) (h : s.meters.meter_accuracy.topk = [1, 5]) :
    ResetBeforePhases (runEpoch c E ep s).2 ∧
    (runEpoch c E ep s).2.head? = some Event.resetMeters ∧
    (runBatches (reset_meters s.meters) E.trainBatches).meter_confusion =
      confAfter s.meters.meter_confusion.k E.trainBatches ∧
    (runBatches (reset_meters (runBatches (reset_meters s.meters)
        E.trainBatches)) E.valBatches).meter_confusion =
      confAfter s.meters.meter_confusion.k E.valBatches ∧
    (runEpoch c E ep s).1.meters.meter_confusion =
      confAfter s.meters.meter_confusion.k E.testBatches ∧
    (runEpoch c E ep s).1.results =
      { train_loss := s.results.train_loss ++ [lossReading E.trainBatches],
        train_top1_accuracy :=
          s.results.train_top1_accuracy ++ [top1Reading E.trainBatches],
        train_top5_accuracy :=
          s.results.train_top5_accuracy ++ [top5Reading E.trainBatches],
        val_loss := s.results.val_loss ++ [lossReading E.valBatches],
        val_top1_accuracy :=
          s.results.val_top1_accuracy ++ [top1Reading E.valBatches],
        val_top5_accuracy :=
          s.results.val_top5_accuracy ++ [top5Reading E.valBatches],
        test_loss := s.results.test_loss ++ [lossReading E.testBatches],
        test_top1_accuracy :=
          s.results.test_top1_accuracy ++ [top1Reading E.testBatches],
        test_top5_accuracy :=
          s.results.test_top5_accuracy ++ [top5Reading E.testBatches] } := by
  have ht1 : (runBatches (reset_meters s.meters)
      E.trainBatches).meter_accuracy.topk = [1, 5] := by
    rw [topk_runBatches, topk_reset]
    exact h
  have ht2 : (runBatches (reset_meters (runBatches (reset_meters s.meters)
      E.trainBatches)) E.valBatches).meter_accuracy.topk = [1, 5] := by
    rw [topk_runBatches, topk_reset]
    exact ht1
  have ha1 := runBatches_accuracy_reset E.trainBatches s.meters h
  have ha2 := runBatches_accuracy_reset E.valBatches _ ht1
  have ha3 := runBatches_accuracy_reset E.testBatches _ ht2
  have hl1 := runBatches_meter_loss_value E.trainBatches s.meters
  have hl2 := runBatches_meter_loss_value E.valBatches
    (runBatches (reset_meters s.meters) E.trainBatches)
  have hl3 := runBatches_meter_loss_value E.testBatches
    (runBatches (reset_meters (runBatches (reset_meters s.meters)
      E.trainBatches)) E.valBatches)
  have hk1 : (runBatches (reset_meters s.meters)
      E.trainBatches).meter_confusion.k = s.meters.meter_confusion.k := by
    rw [conf_k_runBatches, conf_k_reset]
  have hk2 : (runBatches (reset_meters (runBatches (reset_meters s.meters)
      E.trainBatches)) E.valBatches).meter_confusion.k =
      s.meters.meter_confusion.k := by
    rw [conf_k_runBatches, conf_k_reset, hk1]
  refine ⟨?_, ?_, ?_, ?_, ?_, ?_⟩
  · intro p hp hrun
    simp only [runEpoch, on_end_epoch] at hp
    split at hp <;>
      (simp [List.zip] at hp
       casesm* _ ∨ _ <;>
         (subst p
          first
            | rfl
            | simp [isPhaseRunEvt] at hrun))
  · simp [runEpoch]
  · exact runBatches_confusion_reset E.trainBatches s.meters
  · rw [runBatches_confusion_reset, hk1]
  · simp only [runEpoch, on_end_epoch]
    rw [runBatches_confusion_reset, hk2]
  · simp only [runEpoch, on_end_epoch, appendPhase]
    simp [ha1, ha2, ha3, hl1, hl2, hl3, top1Reading, top5Reading]

/-- C4 witness: evaluating the reset discipline and phase isolation for a
concrete one-batch epoch from the initial state. -/
theorem meters_reset_before_phases_instance :
    ResetBeforePhases (runEpoch cfgW epochW 1 (initState cfgW)).2 ∧
    (runEpoch cfgW epochW 1 (initState cfgW)).2.head? =
      some Event.resetMeters ∧
    (runBatches (reset_meters (initState cfgW).meters)
        epochW.trainBatches).meter_confusion =
      confAfter (initState cfgW).meters.meter_confusion.k epochW.trainBatches ∧
    (runBatches (reset_meters (runBatches (reset_meters (initState cfgW).meters)
        epochW.trainBatches)) epochW.valBatches).meter_confusion =
      confAfter (initState cfgW).meters.meter_confusion.k epochW.valBatches ∧
    (runEpoch cfgW epochW 1 (initState cfgW)).1.meters.meter_confusion =
      confAfter (initState cfgW).meters.meter_confusion.k epochW.testBatches ∧
    (runEpoch cfgW epochW 1 (initState cfgW)).1.results =
      { train_loss := (initState cfgW).results.train_loss ++
          [lossReading epochW.trainBatches],
        train_top1_accuracy := (initState cfgW).results.train_top1_accuracy ++
          [top1Reading epochW.trainBatches],
        train_top5_accuracy := (initState cfgW).results.train_top5_accuracy ++
          [top5Reading epochW.trainBatches],
        val_loss := (initState cfgW).results.val_loss ++
          [lossReading epochW.valBatches],
        val_top1_accuracy := (initState cfgW).results.val_top1_accuracy ++
          [top1Reading epochW.valBatches],
        val_top5_accuracy := (initState cfgW).results.val_top5_accuracy ++
          [top5Reading epochW.valBatches],
        test_loss := (initState cfgW).results.test_loss ++
          [lossReading epochW.testBatches],
        test_top1_accuracy := (initState cfgW).results.test_top1_accuracy ++
          [top1Reading epochW.testBatches],
        test_top5_accuracy := (initState cfgW).results.test_top5_accuracy ++
          [top5Reading epochW.testBatches] } :=
  meters_reset_before_phases cfgW epochW 1 (initState cfgW) rfl

/-! ### Statistics persistence lemmas -/

theorem runEpoch_statsFile (c : Config) (E : EpochData) (ep : ℕ) (s : RunState) :
    (runEpoch c E ep s).1.storage.statsFile =
      some { index := List.range' 1 ep, table := (runEpoch c E ep s).1.results } := by
  simp [runEpoch, on_end_epoch]

theorem runEpoch_results_len (c : Config) (E : EpochData) (ep k : ℕ)
    (s : RunState) (h : allLens s.results k) :
    allLens (runEpoch c E ep s).1.results (k + 1) := by
  obtain ⟨h1, h2, h3, h4, h5, h6, h7, h8, h9⟩ := h
  simp [runEpoch, on_end_epoch, appendPhase, allLens, h1, h2, h3, h4, h5, h6,
    h7, h8, h9]

theorem runEpoch_persistArgs (c : Config) (E : EpochData) (ep : ℕ) (s : RunState) :
    persistArgs (runEpoch c E ep s).2 = [(csvPathString c, ep)] := by
  simp [runEpoch, on_end_epoch, persistArgs]

theorem persistArgs_append (a b : List Event) :
    persistArgs (a ++ b) = persistArgs a ++ persistArgs b := by
  simp [persistArgs, List.filterMap_append]

theorem runEpochsFrom_persistArgs (c : Config) (epochs : List EpochData)
    (ep0 : ℕ) (s : RunState) :
    persistArgs (runEpochsFrom c epochs ep0 s).2 =
      (List.range' ep0 epochs.length).map (fun e => (csvPathString c, e)) := by
  induction epochs generalizing ep0 s with
  | nil => simp [runEpochsFrom, persistArgs]
  | cons E rest ih =>
    rw [runEpochsFrom]
    simp only
    rw [persistArgs_append, runEpoch_persistArgs, ih, List.length_cons,
      List.range'_succ]
    simp

theorem runEpochsFrom_stats (c : Config) (epochs : List EpochData) (K : ℕ)
    (s : RunState) (h : allLens s.results K) :
    allLens (runEpochsFrom c epochs (K + 1) s).1.results (K + epochs.length) ∧
    (epochs ≠ [] →
      (runEpochsFrom c epochs (K + 1) s).1.storage.statsFile =
        some { index := List.range' 1 (K + epochs.length),
               table := (runEpochsFrom c epochs (K + 1) s).1.results }) := by
  induction epochs generalizing K s with
  | nil => simpa using h
  | cons E rest ih =>
    have h1 : allLens (runEpoch c E (K + 1) s).1.results (K + 1) :=
      runEpoch_results_len c E (K + 1) K s h
    cases rest with
    | nil =>
      refine ⟨?_, fun _ => ?_⟩
      · simpa [runEpochsFrom] using h1
      · simp only [runEpochsFrom]
        simpa using runEpoch_statsFile c E (K + 1) s
    | cons E2 rest2 =>
      have hx := ih (K + 1) (runEpoch c E (K + 1) s).1 h1
      have harith : K + 1 + (E2 :: rest2).length = K + (E :: E2 :: rest2).length := by
        simp
        omega
      constructor
      · rw [runEpochsFrom]
        simp only
        rw [← harith]
        exact hx.1
      · intro _
        rw [runEpochsFrom]
        simp only
        rw [← harith]
        exact hx.2 (by simp)

/-! ### Top-1 / argmax lemmas -/

theorem mem_take_iff_getElem (l : List ℚ) (n : ℕ) (x : ℚ) :
    x ∈ l.take n ↔ ∃ i, ∃ h : i < l.length, i < n ∧ l[i] = x := by
  constructor
  · intro hx
    obtain ⟨i, hi, hget⟩ := List.mem_iff_getElem.mp hx
    refine ⟨i, ?_, ?_, ?_⟩
    · exact lt_of_lt_of_le hi (by simp [List.length_take])
    · have := hi
      simp [List.length_take] at this
      omega
    · rw [← hget]
      exact (List.getElem_take _).symm
  · rintro ⟨i, h1, h2, rfl⟩
    apply List.mem_iff_getElem.mpr
    exact ⟨i, by simp [List.length_take]; omega, List.getElem_take _⟩

theorem inTop1_iff_argmax (row : List ℚ) (label : ℕ) (hl : label < row.length) :
    inTopK row label 1 = true ↔ argmaxIdx row = label := by
  have hv : row.getD label 0 = row[label] := List.getD_eq_getElem row 0 hl
  have hmax : ∀ x : ℚ, (row.all fun y => decide (y ≤ x)) = true ↔ ∀ y ∈ row, y ≤ x := by
    intro x
    simp [List.all_eq_true]
  constructor
  · intro ht
    have ht2 : decide (rankOf row label < 1) = true := ht
    have hr : rankOf row label = 0 := by
      have := of_decide_eq_true ht2
      omega
    unfold rankOf at hr
    have hA : row.countP (fun x => decide (row.getD label 0 < x)) = 0 := by omega
    have hB : (row.take label).countP (fun x => decide (x = row.getD label 0)) = 0 := by
      omega
    rw [List.countP_eq_zero] at hA hB
    rw [argmaxIdx, List.findIdx_eq hl]
    constructor
    · rw [hmax]
      intro y hy
      have := hA y hy
      rw [hv] at this
      simpa using this
    · intro j hj
      cases hb : (row.all fun y => decide (y ≤ row[j])) with
      | false => rfl
      | true =>
        exfalso
        rw [hmax] at hb
        have hjl : j < row.length := lt_trans hj hl
        have h1 : row[label] ≤ row[j] := hb _ (List.getElem_mem hl)
        have h2 : ¬ row.getD label 0 < row[j] := by
          simpa using hA _ (List.getElem_mem hjl)
        rw [hv] at h2
        have heq : row[j] = row[label] := le_antisymm (not_lt.mp h2) h1
        have hmem : row[j] ∈ row.take label :=
          (mem_take_iff_getElem row label _).mpr ⟨j, hjl, hj, rfl⟩
        have := hB _ hmem
        rw [hv] at this
        simp at this
        exact this heq
  · intro hidx
    rw [argmaxIdx, List.findIdx_eq hl] at hidx
    obtain ⟨h1, h2⟩ := hidx
    rw [hmax] at h1
    have hr : rankOf row label = 0 := by
      unfold rankOf
      have hA : row.countP (fun x => decide (row.getD label 0 < x)) = 0 := by
        rw [List.countP_eq_zero]
        intro a ha
        rw [hv]
        simpa using not_lt.mpr (h1 a ha)
      have hB : (row.take label).countP (fun x => decide (x = row.getD label 0)) = 0 := by
        rw [List.countP_eq_zero]
        intro a ha
        obtain ⟨j, hjlen, hjlab, rfl⟩ := (mem_take_iff_getElem row label a).mp ha
        have hfalse := h2 j hjlab
        simp only [hv, decide_eq_true_eq]
        intro heq
        have : (row.all fun y => decide (y ≤ row[j])) = true := by
          rw [hmax]
          intro y hy
          rw [heq]
          exact h1 y hy
        rw [this] at hfalse
        cases hfalse
      omega
    show decide (rankOf row label < 1) = true
    rw [hr]
    rfl

theorem countCorrect_one_eq (out : List (List ℚ)) (lab : List ℕ)
    (h : ∀ p ∈ out.zip lab, p.2 < p.1.length) :
    countCorrect out lab 1 = (out.zip lab).countP (fun p => argmaxIdx p.1 == p.2) := by
  unfold countCorrect
  apply List.countP_congr
  intro p hp
  rw [inTop1_iff_argmax p.1 p.2 (h p hp), beq_iff_eq]

theorem topkTotal_one_eq (bs : List Batch) (h : ∀ b ∈ bs, BatchWF b) :
    topkTotal bs 1 = argmaxTotal bs := by
  unfold topkTotal argmaxTotal
  congr 1
  apply List.map_congr_left
  intro b hb
  exact countCorrect_one_eq _ _ (h b hb).2

theorem exTotal_eq (bs : List Batch) (h : ∀ b ∈ bs, BatchWF b) :
    exTotal bs = (bs.map (fun b => b.labels.length)).sum := by
  unfold exTotal
  congr 1
  apply List.map_congr_left
  intro b hb
  rw [List.length_zip, (h b hb).1, min_self]

theorem avm_fold (vs : List ℚ) (a : AverageValueMeter) :
    vs.foldl AverageValueMeter.add a =
      { sum := a.sum + vs.sum, n := a.n + vs.length } := by
  induction vs generalizing a with
  | nil => simp
  | cons v vs ih =>
    rw [List.foldl_cons, ih]
    simp only [AverageValueMeter.add, AverageValueMeter.mk.injEq, List.sum_cons,
      List.length_cons]
    constructor
    · ring
    · omega

/-! ### Checkpoint-file lemmas -/

theorem runEpoch_ckptFile (c : Config) (E : EpochData) (ep : ℕ) (s : RunState) :
    (runEpoch c E ep s).1.storage.checkpointFile =
      if s.best_accuracy < epochValAcc s E
      then some (s.modelParams + E.trainBatches.length)
      else s.storage.checkpointFile := by
  simp only [runEpoch, on_end_epoch, epochValAcc]
  split
  · rename_i hq
    rw [if_pos (of_decide_eq_true hq)]
  · rename_i hq
    rw [if_neg (by simpa using hq)]

theorem runEpochsFrom_events (c : Config) (E : EpochData) (rest : List EpochData)
    (ep0 : ℕ) (s : RunState) :
    (runEpochsFrom c (E :: rest) ep0 s).2 =
      (runEpoch c E ep0 s).2 ++
        (runEpochsFrom c rest (ep0 + 1) (runEpoch c E ep0 s).1).2 := by
  rfl

theorem no_ck_aux (c : Config) (epochs : List EpochData) (ep0 : ℕ) (s : RunState)
    (hb : s.best_accuracy = 0) (hck : s.storage.checkpointFile = none)
    (htopk : s.meters.meter_accuracy.topk = [1, 5])
    (h : ∀ E ∈ epochs, top1Reading E.valBatches = 0) :
    (runEpochsFrom c epochs ep0 s).1.storage.checkpointFile = none ∧
    (∀ p, Event.ckWrite p ∉ (runEpochsFrom c epochs ep0 s).2) ∧
    (runEpochsFrom c epochs ep0 s).1.best_accuracy = 0 := by
  induction epochs generalizing ep0 s with
  | nil =>
    refine ⟨hck, ?_, hb⟩
    intro p hp
    simp [runEpochsFrom] at hp
  | cons E rest ih =>
    have hE := h E (List.mem_cons_self E rest)
    have hnlt : ¬ s.best_accuracy < epochValAcc s E := by
      rw [epochValAcc_eq s E htopk, hE, hb]
      exact lt_irrefl 0
    have hb1 : (runEpoch c E ep0 s).1.best_accuracy = 0 := by
      rw [runEpoch_best_char, if_neg hnlt, hb]
    have hck1 : (runEpoch c E ep0 s).1.storage.checkpointFile = none := by
      rw [runEpoch_ckptFile, if_neg hnlt, hck]
    have htopk1 : (runEpoch c E ep0 s).1.meters.meter_accuracy.topk = [1, 5] := by
      rw [topk_runEpoch]
      exact htopk
    have hrest : ∀ E2 ∈ rest, top1Reading E2.valBatches = 0 :=
      fun E2 hE2 => h E2 (List.mem_cons_of_mem E hE2)
    obtain ⟨ha, hbmem, hc⟩ := ih (ep0 + 1) (runEpoch c E ep0 s).1 hb1 hck1 htopk1 hrest
    refine ⟨?_, ?_, ?_⟩
    · rw [runEpochsFrom]
      exact ha
    · intro p hp
      rw [runEpochsFrom_events] at hp
      rcases List.mem_append.mp hp with h1 | h1
      · have := (runEpoch_ckWrite_mem c E ep0 s p).mp h1
        exact hnlt this.2
      · exact hbmem p h1
    · rw [runEpochsFrom]
      exact hc

/-- C5: After every completed epoch K the statistics file is rewritten in
full at `statistics/{data_type}_{model_type}_results.csv`: it holds
exactly the K rows of the nine-column table, indexed 1..K, and each epoch
e of the run persisted exactly one table of e rows at that path. -/
theorem stats_overwritten_one_row_per_epoch (c : Config)
    (epochs : List EpochData) (h : epochs ≠ []) :
    (runEpochsFrom c epochs 1 (initState c)).1.storage.statsFile =
      some { index := List.range' 1 epochs.length,
             table := (runEpochsFrom c epochs 1 (initState c)).1.results } ∧
    allLens (runEpochsFrom c epochs 1 (initState c)).1.results epochs.length ∧
    (List.range' 1 epochs.length).length = epochs.length ∧
    persistArgs (runEpochsFrom c epochs 1 (initState c)).2 =
      (List.range' 1 epochs.length).map (fun e => (csvPathString c, e)) ∧
    csvPathString c =
      "statistics/" ++ (c.data_type ++ "_" ++ c.model_type ++ "_results.csv") := by
  have h0 : allLens (initState c).results 0 := by
    simp [initState, emptyResults, allLens]
  have hx := runEpochsFrom_stats c epochs 0 (initState c) h0
  refine ⟨?_, ?_, List.length_range' _ _ _, ?_, ?_⟩
  · simpa using hx.2 h
  · simpa using hx.1
  · exact runEpochsFrom_persistArgs c epochs 1 (initState c)
  · simp [csvPathString, String.append_assoc]

/-- C5 witness: a one-epoch run persists a one-row table indexed `[1]`. -/
theorem stats_overwritten_one_row_per_epoch_instance :
    (runEpochsFrom cfgW [epochW] 1 (initState cfgW)).1.storage.statsFile =
      some { index := List.range' 1 [epochW].length,
             table := (runEpochsFrom cfgW [epochW] 1 (initState cfgW)).1.results } ∧
    allLens (runEpochsFrom cfgW [epochW] 1 (initState cfgW)).1.results
      [epochW].length ∧
    (List.range' 1 [epochW].length).length = [epochW].length ∧
    persistArgs (runEpochsFrom cfgW [epochW] 1 (initState cfgW)).2 =
      (List.range' 1 [epochW].length).map (fun e => (csvPathString cfgW, e)) ∧
    csvPathString cfgW =
      "statistics/" ++ (cfgW.data_type ++ "_" ++ cfgW.model_type ++ "_results.csv") :=
  stats_overwritten_one_row_per_epoch cfgW [epochW] (List.cons_ne_nil epochW [])

/-- C6: The validation and test phases of every epoch run with the
training flag false inside a no-gradient context and perform zero gradient
steps; the whole of `on_end_epoch` (which contains both evaluation phases)
leaves the model parameters untouched, and an epoch's only parameter
mutations are its train-phase gradient steps. -/
theorem eval_phases_no_grad_no_mutation (c : Config) (E : EpochData) (ep : ℕ)
    (s : RunState) :
    EvalPhasesSafe (runEpoch c E ep s).2 ∧
    (∀ s2 : RunState, (on_end_epoch c E ep s2).1.modelParams = s2.modelParams) ∧
    (runEpoch c E ep s).1.modelParams = s.modelParams + E.trainBatches.length := by
  refine ⟨?_, ?_, ?_⟩
  · intro p tr ng nb g hmem hne
    simp only [runEpoch, on_end_epoch] at hmem
    split at hmem <;> simp at hmem <;> casesm* _ ∨ _ <;> casesm* _ ∧ _ <;> simp_all
  · intro s2
    simp [on_end_epoch]
  · simp [runEpoch, on_end_epoch]

/-- C7: The loss accumulator's `value()` after any sequence of `add`
calls since the last `reset()` is the arithmetic mean of the added values;
immediately after a reset it is the defined empty-state value 0.  The same
holds for the loss meter driven by the per-batch `on_forward` hook. -/
theorem loss_meter_arithmetic_mean (m : AverageValueMeter) (vs : List ℚ)
    (mm : Meters) (bs : List Batch) :
    (vs.foldl AverageValueMeter.add m.reset).value = listAvg vs ∧
    m.reset.value = 0 ∧
    (runBatches (reset_meters mm) bs).meter_loss.value = lossReading bs := by
  refine ⟨?_, rfl, runBatches_meter_loss_value bs mm⟩
  rw [avm_fold]
  simp [AverageValueMeter.reset, AverageValueMeter.value, listAvg]

/-- C8: For well-formed batches, the accuracy meter's `value()` lists the
per-k percentages in the order of the configured k-list `[1, 5]`, and the
k = 1 entry is exactly 100 times the fraction of examples whose argmax
prediction equals the true label. -/
theorem accuracy_meter_top1_argmax_order (bs : List Batch)
    (h : ∀ b ∈ bs, BatchWF b) :
    (accAfter bs).value =
      [if exTotal bs = 0 then 0
       else 100 * (argmaxTotal bs : ℚ) / (exTotal bs : ℚ),
       if exTotal bs = 0 then 0
       else 100 * (topkTotal bs 5 : ℚ) / (exTotal bs : ℚ)] ∧
    exTotal bs = (bs.map (fun b => b.labels.length)).sum := by
  refine ⟨?_, exTotal_eq bs h⟩
  rw [accAfter_value, ← topkTotal_one_eq bs h]

/-- C8 witness: on one concrete two-example batch the meter reads
`[50, 100]`, matching the argmax fraction 1/2 for k = 1. -/
theorem accuracy_meter_top1_argmax_order_instance :
    (accAfter [batchW]).value =
      [if exTotal [batchW] = 0 then 0
       else 100 * (argmaxTotal [batchW] : ℚ) / (exTotal [batchW] : ℚ),
       if exTotal [batchW] = 0 then 0
       else 100 * (topkTotal [batchW] 5 : ℚ) / (exTotal [batchW] : ℚ)] ∧
    exTotal [batchW] = ([batchW].map (fun b => b.labels.length)).sum :=
  accuracy_meter_top1_argmax_order [batchW]
    (by
      intro b hb
      simp only [List.mem_singleton] at hb
      subst hb
      exact ⟨by decide, by decide⟩)

/-- C9: Requesting more parallel compute devices than the machine has is
fatal at startup: the run returns the device error and never produces a
run state or a trace. -/
theorem device_mismatch_fatal_at_startup (c : Config) (epochs : List EpochData)
    (h1 : 1 < c.device_ids.length) (h2 : c.gpu_count < c.device_ids.length) :
    mainRun c epochs =
      Except.error (StartupError.notEnoughGpus c.device_ids.length) ∧
    ∀ r, mainRun c epochs ≠ Except.ok r := by
  have hs : startupCheck c =
      Except.error (StartupError.notEnoughGpus c.device_ids.length) := by
    rw [startupCheck, if_pos h1, if_neg (by omega)]
  constructor
  · rw [mainRun, hs]
  · intro r
    rw [mainRun, hs]
    simp

/-- C9 witness: three devices requested on a two-GPU machine fail at
startup. -/
theorem device_mismatch_fatal_at_startup_instance :
    mainRun cfgBad [] =
      Except.error (StartupError.notEnoughGpus cfgBad.device_ids.length) ∧
    ∀ r, mainRun cfgBad [] ≠ Except.ok r :=
  device_mismatch_fatal_at_startup cfgBad [] (by decide) (by decide)

/-- C10: An epoch whose validation top-1 accuracy is exactly 0 never
writes a checkpoint (the comparison against the best accuracy, which
starts at 0 and stays nonnegative, is strict), and a run all of whose
epochs read 0 writes no checkpoint file at all. -/
theorem zero_val_accuracy_never_checkpoints (c : Config)
    (epochs : List EpochData)
    (h : ∀ E ∈ epochs, top1Reading E.valBatches = 0) :
    (runEpochsFrom c epochs 1 (initState c)).1.storage.checkpointFile = none ∧
    (∀ p, Event.ckWrite p ∉ (runEpochsFrom c epochs 1 (initState c)).2) ∧
    (runEpochsFrom c epochs 1 (initState c)).1.best_accuracy = 0 ∧
    (∀ (E : EpochData) (ep : ℕ) (s : RunState),
      s.meters.meter_accuracy.topk = [1, 5] →
      0 ≤ s.best_accuracy →
      top1Reading E.valBatches = 0 →
      ∀ p, Event.ckWrite p ∉ (runEpoch c E ep s).2) := by
  obtain ⟨h1, h2, h3⟩ := no_ck_aux c epochs 1 (initState c) rfl rfl rfl h
  refine ⟨h1, h2, h3, ?_⟩
  intro E ep s htopk hge hzero p hp
  have := (runEpoch_ckWrite_mem c E ep s p).mp hp
  rw [epochValAcc_eq s E htopk, hzero] at this
  exact absurd this.2 (not_lt.mpr hge)

/-- C10 witness: a one-epoch run with no validation examples (reading 0)
writes no checkpoint. -/
theorem zero_val_accuracy_never_checkpoints_instance :
    (runEpochsFrom cfgW [epochW0] 1 (initState cfgW)).1.storage.checkpointFile =
      none ∧
    (∀ p, Event.ckWrite p ∉ (runEpochsFrom cfgW [epochW0] 1 (initState cfgW)).2) ∧
    (runEpochsFrom cfgW [epochW0] 1 (initState cfgW)).1.best_accuracy = 0 ∧
    (∀ (E : EpochData) (ep : ℕ) (s : RunState),
      s.meters.meter_accuracy.topk = [1, 5] →
      0 ≤ s.best_accuracy →
      top1Reading E.valBatches = 0 →
      ∀ p, Event.ckWrite p ∉ (runEpoch cfgW E ep s).2) :=
  zero_val_accuracy_never_checkpoints cfgW [epochW0] (by decide)

end TrainLoop
